import Mathlib

set_option autoImplicit false

/-!
Verification of the Assistant Identity Resolution & Call-Dispatch
Orchestrator of the dialer-fusion repository (webhookService and its
callers), as a shallow embedding in Lean 4.

The embedding follows the TypeScript source:
- `VapiAssistant` mirrors the local-format assistant record interface.
- `RemoteAssistant` mirrors the raw record returned by the remote
  (Vapi) catalog API.
- `mapVapiAssistantToLocalFormat`, `combineAssistants` mirror the
  Catalog Reconciler in webhookService.
- JavaScript `null`/`undefined` string fields are modelled as the
  empty string (for required fields) or `Option String` (for optional
  fields); JavaScript truthiness of a string is `s ≠ ""`.
-/

namespace DialerFusion

/-- Local-format assistant record (interface VapiAssistant in
webhookService): `assistant_id` is the remote (Vapi) identifier,
the empty string standing for a JS null/undefined value. -/
structure VapiAssistant where
  id : String
  name : String
  assistant_id : String
  user_id : String
  status : Option String := none
  created_at : Option String := none
  system_prompt : Option String := none
  first_message : Option String := none
  model : Option String := none
  voice : Option String := none
deriving Repr, DecidableEq

/-- Raw assistant record as returned by the remote Vapi catalog API
(the shape consumed by mapVapiAssistantToLocalFormat): `id` and `name`
are the provider fields, `metadata_user_id` models
`assistant.metadata?.user_id`. -/
structure RemoteAssistant where
  id : String
  name : String
  status : Option String := none
  metadata_user_id : Option String := none
  createdAt : Option String := none
  instructions : Option String := none
  firstMessage : Option String := none
  model : Option String := none
  voice : Option String := none
deriving Repr, DecidableEq

/-- Status normalization applied throughout the service: a value other
than "ready", "pending" or "failed" (including an absent one) becomes
"ready". -/
def normalizeStatus (s : Option String) : String :=
  match s with
  | some v => if v = "ready" ∨ v = "pending" ∨ v = "failed" then v else "ready"
  | none => "ready"

/-- Translation of a raw remote record into the local format
(mapVapiAssistantToLocalFormat): id maps to both `id` and
`assistant_id`, the embedded owner metadata maps to `user_id`
(JS `assistant.metadata?.user_id || ''`), `instructions` maps to
`system_prompt`, and the status is normalized. -/
def mapVapiAssistantToLocalFormat (a : RemoteAssistant) : VapiAssistant :=
  { id := a.id
    name := a.name
    assistant_id := a.id
    user_id := a.metadata_user_id.getD ""
    status := some (normalizeStatus a.status)
    created_at := a.createdAt
    system_prompt := a.instructions
    first_message := a.firstMessage
    model := a.model
    voice := a.voice }

/-- In-place status update of the first record whose `assistant_id`
equals the remote record's (the findIndex branch of combineAssistants):
returns `none` when no record matches (findIndex = -1). The status is
written only when it differs, exactly as in the source; the result is
extensionally the same either way. -/
def updateFirstByRemoteId (combined : List VapiAssistant) (r : VapiAssistant) :
    Option (List VapiAssistant) :=
  match combined with
  | [] => none
  | a :: rest =>
    if a.assistant_id = r.assistant_id then
      some ((if r.status ≠ a.status then { a with status := r.status } else a) :: rest)
    else
      match updateFirstByRemoteId rest r with
      | none => none
      | some restUpd => some (a :: restUpd)

/-- One iteration of the forEach body of combineAssistants: append the
remote record when it matches no existing `assistant_id`, otherwise
update the first matching record's status in place. -/
def combineStep (combined : List VapiAssistant) (r : VapiAssistant) : List VapiAssistant :=
  match updateFirstByRemoteId combined r with
  | none => combined ++ [r]
  | some upd => upd

/-- Catalog Reconciler merge (combineAssistants): start from the local
list, translate each remote record to local format, then fold the
forEach body over the translated remote records. -/
def combineAssistants (localAssistants : List VapiAssistant) (remote : List RemoteAssistant) :
    List VapiAssistant :=
  (remote.map mapVapiAssistantToLocalFormat).foldl combineStep localAssistants

/-- Sequence of `assistant_id` (remote id) fields of a local-format list. -/
def remoteIds (l : List VapiAssistant) : List String :=
  l.map (fun a => a.assistant_id)

/-- Effect of one reconciler iteration on the id sequence: ids already
present are kept, a new id is appended at the end. -/
def addId (ids : List String) (x : String) : List String :=
  if x ∈ ids then ids else ids ++ [x]

/-- Local record with remote id "x" (first copy), used in concrete instances. -/
def localX1 : VapiAssistant :=
  { id := "1", name := "a1", assistant_id := "x", user_id := "u", status := some "ready" }

/-- Local record with remote id "x" (second copy), used in concrete instances. -/
def localX2 : VapiAssistant :=
  { id := "2", name := "a2", assistant_id := "x", user_id := "u", status := some "ready" }

/-- Remote record with id "y" (first copy), used in concrete instances. -/
def remoteY1 : RemoteAssistant :=
  { id := "y", name := "ra", status := some "ready" }

/-- Remote record with id "y" (second copy), used in concrete instances. -/
def remoteY2 : RemoteAssistant :=
  { id := "y", name := "rb", status := some "ready" }

/-- Remote record with id "x" and status "pending", used in concrete instances. -/
def remoteXPending : RemoteAssistant :=
  { id := "x", name := "rx1", status := some "pending" }

/-- Remote record with id "x" and status "failed", used in concrete instances. -/
def remoteXFailed : RemoteAssistant :=
  { id := "x", name := "rx2", status := some "failed" }

/-- Scenario local record of the spec: localId 1, remoteId null (empty
string), name "A". -/
def scenarioLocalA : VapiAssistant :=
  { id := "1", name := "A", assistant_id := "", user_id := "u" }

/-- Scenario remote record of the spec: id "r1", name "A", status "weird". -/
def scenarioRemoteA : RemoteAssistant :=
  { id := "r1", name := "A", status := some "weird" }

/-- JavaScript truthiness of an optional string: present and non-empty. -/
def truthy : Option String → Bool
  | none => false
  | some s => s ≠ ""

/-- JavaScript `a || b` on optional strings: the first operand when
truthy, otherwise the second. -/
def jsOr (a b : Option String) : Option String :=
  if truthy a then a else b

/-- JS `s.toLowerCase()`, modelled character-wise. -/
def strToLower (s : String) : String := String.mk (s.data.map Char.toLower)

/-- JS `a.includes(b)`: b occurs as a contiguous substring of a. -/
def strIncludes (a b : String) : Bool :=
  decide (b.toList <:+: a.toList)

/-- Loose name match of resolution strategy 5 (lines 550-552):
case-insensitive substring containment in either direction. -/
def nameLooseMatch (candidateName hint : String) : Bool :=
  strIncludes (strToLower candidateName) (strToLower hint)
    || strIncludes (strToLower hint) (strToLower candidateName)

/-- Identity hints carried by the dispatch payload's additional_data
(vapi_assistant_id, assistant_id, assistant_name). -/
structure ResolveHints where
  vapi_assistant_id : Option String := none
  assistant_id : Option String := none
  assistant_name : Option String := none
deriving Repr, DecidableEq

/-- Assistant row returned by assistantService.getAssistantById from
the local database (strategy 3). -/
structure DbAssistant where
  id : String
  name : Option String := none
  assistant_id : Option String := none
deriving Repr, DecidableEq

/-- Assistant parsed from the localStorage selected_assistant slot
(strategy 4); every field may be absent in the stored JSON. -/
structure StoredAssistant where
  id : Option String := none
  name : Option String := none
  assistant_id : Option String := none
deriving Repr, DecidableEq

/-- Catalog entry as returned by getAssistantsFromVapiApi (strategy 5):
a raw remote record with its id and name. -/
structure CatalogEntry where
  id : String
  name : String
  status : Option String := none
deriving Repr, DecidableEq

/-- Details returned by getVapiAssistantById (used inside strategy 2 to
recover a display name). -/
structure RawAssistantDetails where
  name : Option String := none
deriving Repr, DecidableEq

/-- External calls the resolution cascade can make, in execution order. -/
inductive ResolveQuery where
  | byName (name : String)
  | ensureId (id : String)
  | byId (id : String)
  | localDb (id : String)
  | readStorage
  | listAll
deriving Repr, DecidableEq

/-- Collaborators consulted by the cascade: the assistant service, the
remote Vapi catalog, the local database and the localStorage slot. -/
structure ResolveEnv where
  idByName : String → Option String
  ensureVapiId : String → Option String
  vapiById : String → Option RawAssistantDetails
  assistantFromDb : String → Option DbAssistant
  storedAssistant : Option StoredAssistant
  vapiCatalog : List CatalogEntry

/-- Mutable locals of triggerCallWebhook during resolution, plus the
log of external calls and the degraded-resolution marker. -/
structure RState where
  vapiAssistantId : Option String
  supabaseAssistantId : Option String
  assistantNameToUse : Option String
  queries : List ResolveQuery
  usedFallback : Bool
deriving Repr, DecidableEq

/-- Initial resolution state read from the payload (lines 430-432). -/
def initResolveState (hints : ResolveHints) : RState :=
  { vapiAssistantId := hints.vapi_assistant_id
    supabaseAssistantId := hints.assistant_id
    assistantNameToUse := hints.assistant_name
    queries := []
    usedFallback := false }

/-- Strategy 1 (lines 435-449): when a name hint is present and no
remote id is known yet, look the id up by name and accept it if truthy. -/
def strategy1 (env : ResolveEnv) (st : RState) : RState :=
  if truthy st.assistantNameToUse && !truthy st.vapiAssistantId then
    let nm := st.assistantNameToUse.getD ""
    let idByName := env.idByName nm
    let st1 := { st with queries := st.queries ++ [ResolveQuery.byName nm] }
    if truthy idByName then { st1 with vapiAssistantId := idByName } else st1
  else st

/-- Strategy 2 (lines 452-475): when a local (supabase) id hint is
present, confirm a Vapi id for it via ensureVapiAssistantId; on success
also fetch the record by id to recover a name when none is known. -/
def strategy2 (hints : ResolveHints) (env : ResolveEnv) (st : RState) : RState :=
  if !truthy st.vapiAssistantId
      && (truthy st.supabaseAssistantId || truthy hints.assistant_id) then
    let sid := (jsOr st.supabaseAssistantId hints.assistant_id).getD ""
    let confirmed := env.ensureVapiId sid
    let st1 := { st with queries := st.queries ++ [ResolveQuery.ensureId sid] }
    if truthy confirmed then
      let st2 := { st1 with vapiAssistantId := confirmed }
      if !truthy st2.assistantNameToUse then
        let st3 := { st2 with queries := st2.queries ++ [ResolveQuery.byId (confirmed.getD "")] }
        match env.vapiById (confirmed.getD "") with
        | some d => if truthy d.name then { st3 with assistantNameToUse := d.name } else st3
        | none => st3
      else st2
    else st1
  else st

/-- Strategy 3 (lines 478-493): fetch the local database row for the
supabase id and use its stored assistant_id (and name) when present. -/
def strategy3 (env : ResolveEnv) (st : RState) : RState :=
  if !truthy st.vapiAssistantId && truthy st.supabaseAssistantId then
    let sid := st.supabaseAssistantId.getD ""
    let st1 := { st with queries := st.queries ++ [ResolveQuery.localDb sid] }
    match env.assistantFromDb sid with
    | some row =>
      if truthy row.assistant_id then
        { st1 with vapiAssistantId := row.assistant_id, assistantNameToUse := row.name }
      else st1
    | none => st1
  else st

/-- Strategy 4 (lines 496-540): read the cached selection from
localStorage; take its assistant_id (falling back to its id), retry the
by-name lookup when an id is still missing, and confirm a found id via
ensureVapiAssistantId. -/
def strategy4 (env : ResolveEnv) (st : RState) : RState :=
  if !truthy st.vapiAssistantId then
    let st0 := { st with queries := st.queries ++ [ResolveQuery.readStorage] }
    match env.storedAssistant with
    | none => st0
    | some a =>
      let st1 := { st0 with
        vapiAssistantId := jsOr a.assistant_id a.id
        supabaseAssistantId := a.id
        assistantNameToUse := a.name }
      let st2 :=
        if truthy st1.assistantNameToUse && !truthy st1.vapiAssistantId then
          let nm := st1.assistantNameToUse.getD ""
          let st2a := { st1 with queries := st1.queries ++ [ResolveQuery.byName nm] }
          if truthy (env.idByName nm) then { st2a with vapiAssistantId := env.idByName nm }
          else st2a
        else st1
      if truthy st2.vapiAssistantId then
        let vid := st2.vapiAssistantId.getD ""
        let st3 := { st2 with queries := st2.queries ++ [ResolveQuery.ensureId vid] }
        if truthy (env.ensureVapiId vid) then { st3 with vapiAssistantId := env.ensureVapiId vid }
        else st3
      else st2
  else st

/-- Strategy 5 (lines 543-574): list all remote assistants; when the
catalog is non-empty, pick the first loose name match when a name hint
is known, then fall back to the first catalog record when still no
truthy id was selected. -/
def strategy5 (env : ResolveEnv) (st : RState) : RState :=
  if !truthy st.vapiAssistantId then
    let st0 := { st with queries := st.queries ++ [ResolveQuery.listAll] }
    match env.vapiCatalog with
    | [] => st0
    | c0 :: rest =>
      let st1 :=
        if truthy st0.assistantNameToUse then
          let nm := st0.assistantNameToUse.getD ""
          match (c0 :: rest).find? (fun a => nameLooseMatch a.name nm) with
          | some m => { st0 with vapiAssistantId := some m.id }
          | none => st0
        else st0
      if !truthy st1.vapiAssistantId then
        { st1 with vapiAssistantId := some c0.id, assistantNameToUse := some c0.name }
      else st1
  else st

/-- Fallback identifier reserved for the case where every resolution
strategy failed (line 577 of the source, also line 43). -/
def FALLBACK_VAPI_ASSISTANT_ID : String := "01646bac-c486-455b-b1f7-1c8e15ba4cbf"

/-- Strategy 6 (lines 576-582): use the fixed fallback identifier and
the default display name, marking the resolution as degraded. -/
def strategy6 (st : RState) : RState :=
  if !truthy st.vapiAssistantId then
    { st with vapiAssistantId := some FALLBACK_VAPI_ASSISTANT_ID
              assistantNameToUse := some "Assistente Padrão"
              usedFallback := true }
  else st

/-- Identity-resolution cascade of triggerCallWebhook (lines 430-590):
the six strategies applied in source order. -/
def resolveVapiAssistantId (hints : ResolveHints) (env : ResolveEnv) : RState :=
  strategy6 (strategy5 env (strategy4 env (strategy3 env
    (strategy2 hints env (strategy1 env (initResolveState hints))))))

/-- Outcome of an outbound HTTP request through the timeout-bounded
fetch: ok, a non-success status, an AbortError after the 8-second
deadline, or another transport failure. -/
inductive HttpResult where
  | ok
  | httpError (status : Nat)
  | timeout
  | networkError
deriving Repr, DecidableEq

/-- Dispatch tail of triggerCallWebhook (lines 584-687): a non-truthy
resolved id aborts with success false (unreachable after strategy 6);
otherwise only the POST outcome decides the result — response.ok maps
to success true, a non-success status, timeout or network error maps to
success false, and every error path returns instead of raising. -/
def interpretPost : HttpResult → Bool
  | HttpResult.ok => true
  | _ => false

def triggerCallWebhook (hints : ResolveHints) (env : ResolveEnv)
    (post : HttpResult) : Bool × RState :=
  let st := resolveVapiAssistantId hints env
  if !truthy st.vapiAssistantId then (false, st)
  else (interpretPost post, st)

/-- Result of the stop-campaign UI flow: whether onCampaignStopped ran
(the local campaign state advances to stopped) and which notification
is raised. -/
structure StopOutcome where
  campaignStopped : Bool
  notice : String
deriving Repr, DecidableEq

/-- Tail of handleStopCampaign (ActiveCampaign.tsx, lines 123-142):
the success branch and the failure branch both invoke
onCampaignStopped; only the notification differs. -/
def handleStopCampaign (webhookSuccess : Bool) : StopOutcome :=
  if webhookSuccess then { campaignStopped := true, notice := "success" }
  else { campaignStopped := true, notice := "warning" }

/-- Row of the assistants table consulted by deleteAssistant. -/
structure AssistantRow where
  id : String
  assistant_id : String
deriving Repr, DecidableEq

/-- Collaborator outcomes for one run of deleteAssistant. -/
structure DeleteEnv where
  lookup : Option AssistantRow
  remoteDeleteResult : HttpResult
  localDeleteError : Bool
  selectedStoredId : Option String
deriving Repr, DecidableEq

/-- Steps taken by deleteAssistant, in execution order. -/
inductive DeleteEvent where
  | fetchLocal
  | deleteRemote (vapiId : String)
  | deleteLocal
  | clearSelection
deriving Repr, DecidableEq

/-- deleteAssistant (lines 213-285): fetch the local row (false on
failure); attempt the remote deletion, whose outcome — including a
non-success status or a thrown error — is only logged; delete the local
row (false on failure); finally clear the stored selection when it
pointed at the deleted assistant. -/
def deleteAssistant (assistantId : String) (env : DeleteEnv) :
    Bool × List DeleteEvent :=
  match env.lookup with
  | none => (false, [DeleteEvent.fetchLocal])
  | some row =>
    let evs := [DeleteEvent.fetchLocal, DeleteEvent.deleteRemote row.assistant_id]
    if env.localDeleteError then (false, evs ++ [DeleteEvent.deleteLocal])
    else
      let evs2 := evs ++ [DeleteEvent.deleteLocal]
      if env.selectedStoredId = some assistantId then
        (true, evs2 ++ [DeleteEvent.clearSelection])
      else (true, evs2)

/-- Owner filter of getAllAssistants (lines 98-103): keep a remote
record only when its metadata carries a truthy user_id equal to the
requesting user; a record without the tag returns false. -/
def ownerPred (userId : String) (a : RemoteAssistant) : Bool :=
  match a.metadata_user_id with
  | some uid => if uid ≠ "" then uid = userId else false
  | none => false

/-- Happy-path body of getAllAssistants (lines 94-115): filter the raw
remote records by the owner metadata tag, then merge with the local
records. -/
def getAllAssistantsCombined (userId : String) (localAssistants : List VapiAssistant)
    (remote : List RemoteAssistant) : List VapiAssistant :=
  combineAssistants localAssistants (remote.filter (ownerPred userId))

/-- Object reference in the heap model of combineAssistants: local
records live in the caller's heap (the shallow copy `[...local]` copies
references, not objects), while translated remote records are fresh
values. -/
inductive ObjRef where
  | ptr (p : ℕ)
  | val (v : VapiAssistant)
deriving Repr, DecidableEq

/-- Dereference an object reference against the heap. -/
def derefObj (heap : List VapiAssistant) : ObjRef → Option VapiAssistant
  | ObjRef.ptr p => heap[p]?
  | ObjRef.val v => some v

/-- Heap-level findIndex-and-update branch of combineAssistants: locate
the first reference whose object's assistant_id matches the remote
record and write the remote status through it — into the caller's heap
when the reference is a pointer. -/
def updateFirstH (heap : List VapiAssistant) (combined : List ObjRef)
    (r : VapiAssistant) : Option (List VapiAssistant × List ObjRef) :=
  match combined with
  | [] => none
  | o :: rest =>
    match derefObj heap o with
    | none => none
    | some a =>
      if a.assistant_id = r.assistant_id then
        let aUpd := if r.status ≠ a.status then { a with status := r.status } else a
        match o with
        | ObjRef.ptr p => some (heap.set p aUpd, o :: rest)
        | ObjRef.val _ => some (heap, ObjRef.val aUpd :: rest)
      else
        match updateFirstH heap rest r with
        | none => none
        | some (heapUpd, restUpd) => some (heapUpd, o :: restUpd)

/-- Heap-level forEach body of combineAssistants. -/
def combineStepH (state : List VapiAssistant × List ObjRef) (r : VapiAssistant) :
    List VapiAssistant × List ObjRef :=
  match updateFirstH state.fst state.snd r with
  | none => (state.fst, state.snd ++ [ObjRef.val r])
  | some stUpd => stUpd

/-- Heap-level combineAssistants: the fold starts from a copy of the
list of references into the caller's heap. -/
def combineAssistantsH (heap : List VapiAssistant) (localRefs : List ℕ)
    (remote : List RemoteAssistant) : List VapiAssistant × List ObjRef :=
  (remote.map mapVapiAssistantToLocalFormat).foldl combineStepH
    (heap, localRefs.map ObjRef.ptr)

/-- Environment whose collaborators all fail or return nothing. -/
def emptyResolveEnv : ResolveEnv :=
  { idByName := fun _ => none
    ensureVapiId := fun _ => none
    vapiById := fun _ => none
    assistantFromDb := fun _ => none
    storedAssistant := none
    vapiCatalog := [] }

/-- Hints carrying only a remote (Vapi) assistant id. -/
def hintsRemoteOnly : ResolveHints := { vapi_assistant_id := some "vapi-123" }

/-- Hints carrying nothing. -/
def hintsNone : ResolveHints := {}

/-- Catalog entry whose name loosely matches the hint "Sales Bot". -/
def catalogSales : CatalogEntry := { id := "s1", name := "The SALES bot 3000" }

/-- Resolution state carrying only the name hint "Sales Bot". -/
def stNameHint : RState :=
  { vapiAssistantId := none
    supabaseAssistantId := none
    assistantNameToUse := some "Sales Bot"
    queries := []
    usedFallback := false }

/-- Environment whose catalog holds exactly the Sales entry. -/
def envSales : ResolveEnv := { emptyResolveEnv with vapiCatalog := [catalogSales] }

/-- Remote record carrying no owner metadata tag. -/
def remoteNoOwner : RemoteAssistant := { id := "z", name := "rz" }

/-- Remote record owned by user "u". -/
def remoteOwnedU : RemoteAssistant :=
  { id := "w", name := "rw", metadata_user_id := some "u" }

/-- Assistants-table row for the concrete delete run. -/
def deleteRowA1 : AssistantRow := { id := "a1", assistant_id := "v1" }

/-- Delete run whose remote deletion times out but whose local lookup
and deletion succeed. -/
def deleteEnvOk : DeleteEnv :=
  { lookup := some deleteRowA1
    remoteDeleteResult := HttpResult.timeout
    localDeleteError := false
    selectedStoredId := some "a1" }

theorem updateFirstByRemoteId_eq_none {cs : List VapiAssistant} {r : VapiAssistant} :
    updateFirstByRemoteId cs r = none ↔ r.assistant_id ∉ remoteIds cs := by
  induction cs with
  | nil => simp [updateFirstByRemoteId, remoteIds]
  | cons a rest ih =>
    simp only [remoteIds, List.map_cons, List.mem_cons, not_or]
    by_cases h : a.assistant_id = r.assistant_id
    · simp only [updateFirstByRemoteId, if_pos h]
      constructor
      · intro hc; simp at hc
      · rintro ⟨h1, -⟩; exact absurd h.symm h1
    · simp only [updateFirstByRemoteId, if_neg h]
      cases hrec : updateFirstByRemoteId rest r with
      | none =>
        have hmem := ih.mp hrec
        simp only [true_iff]
        refine ⟨fun hc => h hc.symm, ?_⟩
        simpa [remoteIds] using hmem
      | some restUpd =>
        have hmem : r.assistant_id ∈ remoteIds rest := by
          by_contra hc
          rw [ih.mpr hc] at hrec
          cases hrec
        constructor
        · intro hc; cases hc
        · rintro ⟨-, h2⟩
          exact absurd hmem (by simpa [remoteIds] using h2)

theorem updateFirstByRemoteId_ids {cs : List VapiAssistant} {r : VapiAssistant}
    {csUpd : List VapiAssistant} (h : updateFirstByRemoteId cs r = some csUpd) :
    remoteIds csUpd = remoteIds cs := by
  induction cs generalizing csUpd with
  | nil => simp [updateFirstByRemoteId] at h
  | cons a rest ih =>
    by_cases hid : a.assistant_id = r.assistant_id
    · simp only [updateFirstByRemoteId, if_pos hid, Option.some.injEq] at h
      subst h
      by_cases hst : r.status ≠ a.status <;> simp [hst, remoteIds]
    · simp only [updateFirstByRemoteId, if_neg hid] at h
      cases hrec : updateFirstByRemoteId rest r with
      | none => rw [hrec] at h; cases h
      | some restUpd =>
        rw [hrec] at h
        simp only [Option.some.injEq] at h
        subst h
        simp only [remoteIds, List.map_cons]
        rw [show restUpd.map (fun a => a.assistant_id) = remoteIds restUpd from rfl,
          ih hrec]
        rfl

theorem updateFirstByRemoteId_untouched {cs : List VapiAssistant} {r : VapiAssistant}
    {csUpd : List VapiAssistant} (h : updateFirstByRemoteId cs r = some csUpd)
    {i : ℕ} {a : VapiAssistant} (hi : cs[i]? = some a)
    (hne : a.assistant_id ≠ r.assistant_id) : csUpd[i]? = some a := by
  induction cs generalizing csUpd i with
  | nil => simp [updateFirstByRemoteId] at h
  | cons b rest ih =>
    by_cases hid : b.assistant_id = r.assistant_id
    · simp only [updateFirstByRemoteId, if_pos hid, Option.some.injEq] at h
      subst h
      cases i with
      | zero =>
        simp only [List.getElem?_cons_zero, Option.some.injEq] at hi
        subst hi
        exact absurd hid hne
      | succ j => simpa using hi
    · simp only [updateFirstByRemoteId, if_neg hid] at h
      cases hrec : updateFirstByRemoteId rest r with
      | none => rw [hrec] at h; cases h
      | some restUpd =>
        rw [hrec] at h
        simp only [Option.some.injEq] at h
        subst h
        cases i with
        | zero => simpa using hi
        | succ j =>
          simp only [List.getElem?_cons_succ] at hi ⊢
          exact ih hrec hi

theorem updateFirstByRemoteId_hits {cs : List VapiAssistant} {r : VapiAssistant}
    {i : ℕ} {l : VapiAssistant} (hi : cs[i]? = some l)
    (hid : l.assistant_id = r.assistant_id)
    (hfirst : ∀ j, j < i → (remoteIds cs)[j]? ≠ some r.assistant_id) :
    ∃ csUpd, updateFirstByRemoteId cs r = some csUpd
      ∧ csUpd[i]? = some { l with status := r.status } := by
  induction cs generalizing i with
  | nil => simp at hi
  | cons a rest ih =>
    cases i with
    | zero =>
      simp only [List.getElem?_cons_zero, Option.some.injEq] at hi
      subst hi
      have hupd : updateFirstByRemoteId (a :: rest) r
          = some ((if r.status ≠ a.status then { a with status := r.status } else a) :: rest) := by
        simp [updateFirstByRemoteId, hid]
      refine ⟨_, hupd, ?_⟩
      by_cases hst : r.status ≠ a.status
      · simp [hst]
      · push_neg at hst
        simp only [ne_eq, hst, not_true_eq_false, if_false, List.getElem?_cons_zero,
          Option.some.injEq]
    | succ j =>
      have ha : a.assistant_id ≠ r.assistant_id := by
        have h0 := hfirst 0 (Nat.succ_pos j)
        simpa [remoteIds] using h0
      simp only [List.getElem?_cons_succ] at hi
      have hfirst2 : ∀ k, k < j → (remoteIds rest)[k]? ≠ some r.assistant_id := by
        intro k hk
        have := hfirst (k + 1) (Nat.succ_lt_succ hk)
        simpa [remoteIds] using this
      obtain ⟨restUpd, hrec, hget⟩ := ih hi hfirst2
      refine ⟨a :: restUpd, ?_, by simpa using hget⟩
      simp [updateFirstByRemoteId, if_neg ha, hrec]

theorem remoteIds_combineStep (cs : List VapiAssistant) (r : VapiAssistant) :
    remoteIds (combineStep cs r) = addId (remoteIds cs) r.assistant_id := by
  cases h : updateFirstByRemoteId cs r with
  | none =>
    have hnot : r.assistant_id ∉ remoteIds cs := updateFirstByRemoteId_eq_none.mp h
    simp only [combineStep, h]
    simp only [addId]
    rw [if_neg hnot]
    simp [remoteIds]
  | some csUpd =>
    have hmem : r.assistant_id ∈ remoteIds cs := by
      by_contra hnot
      rw [updateFirstByRemoteId_eq_none.mpr hnot] at h
      cases h
    simp only [combineStep, h, addId, if_pos hmem, updateFirstByRemoteId_ids h]

theorem remoteIds_foldl (rs : List VapiAssistant) (cs : List VapiAssistant) :
    remoteIds (rs.foldl combineStep cs)
      = (rs.map (fun r => r.assistant_id)).foldl addId (remoteIds cs) := by
  induction rs generalizing cs with
  | nil => rfl
  | cons r rest ih =>
    simp only [List.foldl_cons, List.map_cons]
    rw [ih, remoteIds_combineStep]

theorem addId_foldl_prefix (xs : List String) (ids : List String) :
    ∃ extra, xs.foldl addId ids = ids ++ extra := by
  induction xs generalizing ids with
  | nil => exact ⟨[], by simp⟩
  | cons x rest ih =>
    simp only [List.foldl_cons, addId]
    by_cases h : x ∈ ids
    · simpa [h] using ih ids
    · obtain ⟨extra, hextra⟩ := ih (ids ++ [x])
      exact ⟨[x] ++ extra, by simp [h, hextra]⟩

theorem addId_foldl_length {xs : List String} (hx : xs.Nodup) (ids : List String) :
    (xs.foldl addId ids).length
      = ids.length + (xs.filter (fun x => x ∉ ids)).length := by
  induction xs generalizing ids with
  | nil => simp
  | cons x rest ih =>
    obtain ⟨hxr, hrest⟩ := List.nodup_cons.mp hx
    by_cases h : x ∈ ids
    · have h1 : addId ids x = ids := if_pos h
      have h2 : (x :: rest).filter (fun y => y ∉ ids)
          = rest.filter (fun y => y ∉ ids) := by
        simp [List.filter_cons, h]
      rw [List.foldl_cons, h1, h2, ih hrest ids]
    · have h1 : addId ids x = ids ++ [x] := if_neg h
      have h2 : (x :: rest).filter (fun y => y ∉ ids)
          = x :: rest.filter (fun y => y ∉ ids) := by
        simp [List.filter_cons, h]
      have h3 : rest.filter (fun y => y ∉ ids ++ [x])
          = rest.filter (fun y => y ∉ ids) := by
        apply List.filter_congr
        intro y hy
        have hyx : y ≠ x := fun hcontra => hxr (hcontra ▸ hy)
        simp [hyx]
      rw [List.foldl_cons, h1, ih hrest (ids ++ [x]), h3, h2]
      simp only [List.length_append, List.length_cons, List.length_nil]
      omega

theorem addId_foldl_nodup_filter {ids : List String}
    (hids : (ids.filter (fun x => x ≠ "")).Nodup) (xs : List String) :
    ((xs.foldl addId ids).filter (fun x => x ≠ "")).Nodup := by
  induction xs generalizing ids with
  | nil => simpa using hids
  | cons x rest ih =>
    simp only [List.foldl_cons, addId]
    by_cases h : x ∈ ids
    · simpa [h] using ih hids
    · simp only [if_neg h]
      apply ih
      by_cases hx : x = ""
      · simpa [hx] using hids
      · rw [List.filter_append]
        have hsing : [x].filter (fun y => y ≠ "") = [x] := by simp [hx]
        rw [hsing, List.nodup_append]
        refine ⟨hids, List.nodup_singleton x, ?_⟩
        intro y hy hmem
        simp only [List.mem_singleton] at hmem
        subst hmem
        exact h (List.mem_of_mem_filter hy)

theorem combineStep_untouched {cs : List VapiAssistant} {i : ℕ} {a : VapiAssistant}
    (hi : cs[i]? = some a) {r : VapiAssistant}
    (hne : r.assistant_id ≠ a.assistant_id) : (combineStep cs r)[i]? = some a := by
  unfold combineStep
  cases h : updateFirstByRemoteId cs r with
  | none =>
    have hlt : i < cs.length := by
      by_contra hge
      rw [List.getElem?_eq_none (Nat.le_of_not_lt hge)] at hi
      cases hi
    show (cs ++ [r])[i]? = some a
    rw [List.getElem?_append_left hlt]
    exact hi
  | some csUpd => exact updateFirstByRemoteId_untouched h hi (fun hc => hne hc.symm)

theorem foldl_combineStep_untouched {rs : List VapiAssistant} {cs : List VapiAssistant}
    {i : ℕ} {a : VapiAssistant} (hi : cs[i]? = some a)
    (hrs : ∀ r ∈ rs, r.assistant_id ≠ a.assistant_id) :
    (rs.foldl combineStep cs)[i]? = some a := by
  induction rs generalizing cs with
  | nil => exact hi
  | cons r rest ih =>
    simp only [List.foldl_cons]
    exact ih (combineStep_untouched hi (hrs r (List.mem_cons_self r rest)))
      (fun q hq => hrs q (List.mem_cons_of_mem r hq))

theorem foldl_combineStep_first_idx {rs cs : List VapiAssistant} {key : String} {i : ℕ}
    (hfirst : ∀ j, j < i → (remoteIds cs)[j]? ≠ some key) (hi : i < cs.length) :
    ∀ j, j < i → (remoteIds (rs.foldl combineStep cs))[j]? ≠ some key := by
  intro j hj
  rw [remoteIds_foldl]
  obtain ⟨extra, hextra⟩ := addId_foldl_prefix (rs.map fun r => r.assistant_id) (remoteIds cs)
  rw [hextra, List.getElem?_append_left (by simp [remoteIds]; omega)]
  exact hfirst j hj

theorem two_getElem_le_count {α : Type} [DecidableEq α] {x : α} :
    ∀ {xs : List α} {i j : ℕ}, i < j → xs[i]? = some x → xs[j]? = some x →
      2 ≤ xs.count x := by
  intro xs
  induction xs with
  | nil => intro i j _ hi _; cases hi
  | cons a t ih =>
    intro i j hij hi hj
    cases i with
    | zero =>
      simp only [List.getElem?_cons_zero, Option.some.injEq] at hi
      subst hi
      cases j with
      | zero => exact absurd hij (by omega)
      | succ jj =>
        simp only [List.getElem?_cons_succ] at hj
        have hmem : a ∈ t := by
          have hlt : jj < t.length := by
            by_contra hge
            rw [List.getElem?_eq_none (Nat.le_of_not_lt hge)] at hj
            cases hj
          have := List.getElem_mem hlt
          rw [List.getElem?_eq_getElem hlt] at hj
          simp only [Option.some.injEq] at hj
          rw [hj] at this
          exact this
        rw [List.count_cons_self]
        have : 0 < t.count a := List.count_pos_iff.mpr hmem
        omega
    | succ ii =>
      cases j with
      | zero => exact absurd hij (by omega)
      | succ jj =>
        simp only [List.getElem?_cons_succ] at hi hj
        have := ih (Nat.lt_of_succ_lt_succ hij) hi hj
        rw [List.count_cons]
        omega

theorem length_filter_ids (R : List RemoteAssistant) (ids : List String) :
    ((R.map (fun r => r.id)).filter (fun x => x ∉ ids)).length
      = (R.filter (fun r => r.id ∉ ids)).length := by
  induction R with
  | nil => rfl
  | cons r rest ih =>
    simp only [List.map_cons, List.filter_cons]
    by_cases h : r.id ∈ ids
    · rw [if_neg (by simp [h]), if_neg (by simp [h])]
      exact ih
    · rw [if_pos (by simp [h]), if_pos (by simp [h])]
      simpa using ih

/-- C1 (amended): when the remote records carry pairwise-distinct ids,
merge(L, R) returns exactly |L| + |{r in R : r.remoteId not in ids(L)}|
records, and when additionally the non-empty remoteIds of the local
records are pairwise distinct, the output never contains two records
with the same non-empty remoteId. (As stated over every L and R the
claim fails: a repeated remote id in R breaks the record count, and a
repeated non-empty remoteId in L survives into the output.) -/
theorem c1_merge_size_and_unique_remote_ids
    (L : List VapiAssistant) (R : List RemoteAssistant)
    (hR : (R.map (fun r => r.id)).Nodup)
    (hL : ((L.map (fun a => a.assistant_id)).filter (fun x => x ≠ "")).Nodup) :
    (combineAssistants L R).length
        = L.length + (R.filter (fun r => r.id ∉ L.map (fun a => a.assistant_id))).length
      ∧ (((combineAssistants L R).map (fun a => a.assistant_id)).filter
          (fun x => x ≠ "")).Nodup := by
  have hids : remoteIds (combineAssistants L R)
      = (R.map (fun r => r.id)).foldl addId (remoteIds L) := by
    unfold combineAssistants
    rw [remoteIds_foldl, List.map_map]
    rfl
  constructor
  · have hlen : (combineAssistants L R).length
        = (remoteIds (combineAssistants L R)).length := by
      simp [remoteIds]
    rw [hlen, hids, addId_foldl_length hR (remoteIds L)]
    have hLlen : (remoteIds L).length = L.length := by simp [remoteIds]
    rw [hLlen]
    congr 1
    exact length_filter_ids R (remoteIds L)
  · have hmap : (combineAssistants L R).map (fun a => a.assistant_id)
        = remoteIds (combineAssistants L R) := rfl
    rw [hmap, hids]
    exact addId_foldl_nodup_filter hL _

/-- C1 witness: the amended statement applied at L = [localX1],
R = [remoteY1], where both distinctness hypotheses hold. -/
theorem c1_merge_size_and_unique_remote_ids_witness :
    ([remoteY1].map (fun r => r.id)).Nodup
    ∧ (([localX1].map (fun a => a.assistant_id)).filter (fun x => x ≠ "")).Nodup
    ∧ ((combineAssistants [localX1] [remoteY1]).length
          = [localX1].length + ([remoteY1].filter
              (fun r => r.id ∉ [localX1].map (fun a => a.assistant_id))).length
        ∧ (((combineAssistants [localX1] [remoteY1]).map (fun a => a.assistant_id)).filter
            (fun x => x ≠ "")).Nodup) :=
  ⟨by decide, by decide,
    c1_merge_size_and_unique_remote_ids [localX1] [remoteY1] (by decide) (by decide)⟩

/-- C1 counterexample: for L = [localX1, localX2] (both carrying the
non-empty remoteId "x") and R = [remoteY1, remoteY2] (both carrying id
"y"), merge returns 3 records while the claim predicts
|L| + |{r in R : r.remoteId not in ids(L)}| = 2 + 2 = 4, and the output
contains two records with the same non-empty remoteId "x". -/
theorem c1_counterexample :
    (combineAssistants [localX1, localX2] [remoteY1, remoteY2]).length = 3
    ∧ [localX1, localX2].length
        + ([remoteY1, remoteY2].filter
            (fun r => r.id ∉ [localX1, localX2].map (fun a => a.assistant_id))).length = 4
    ∧ ¬ (((combineAssistants [localX1, localX2] [remoteY1, remoteY2]).map
          (fun a => a.assistant_id)).filter (fun x => x ≠ "")).Nodup := by
  decide

/-- C2 (amended): when the shared remoteId occurs exactly once among the
local records and exactly once among the remote records, the merged
record at the local record's position has status equal to the remote
record's normalized status and every other field equal to the local
record's field. (As stated over every L and R the claim fails when two
remote records share the id: the last one's status wins, see the
counterexample.) -/
theorem c2_merge_status_update_frame
    (L : List VapiAssistant) (R : List RemoteAssistant)
    {l : VapiAssistant} {r : RemoteAssistant} {i : ℕ}
    (hLi : L[i]? = some l) (hr : r ∈ R)
    (hid : l.assistant_id = r.id)
    (hL1 : (L.map (fun a => a.assistant_id)).count r.id = 1)
    (hR1 : (R.map (fun q => q.id)).count r.id = 1) :
    (combineAssistants L R)[i]?
      = some { l with status := some (normalizeStatus r.status) } := by
  have hiLlen : i < L.length := by
    by_contra hge
    rw [List.getElem?_eq_none (Nat.le_of_not_lt hge)] at hLi
    cases hLi
  have hkey : (remoteIds L)[i]? = some r.id := by
    simp only [remoteIds, List.getElem?_map, hLi, Option.map_some']
    rw [hid]
  have hfirst : ∀ j, j < i → (remoteIds L)[j]? ≠ some r.id := by
    intro j hj hc
    have h2c := two_getElem_le_count hj hc hkey
    have : remoteIds L = L.map (fun a => a.assistant_id) := rfl
    rw [this] at h2c
    omega
  obtain ⟨R1, R2, rfl⟩ := List.append_of_mem hr
  have hcounts : (R1.map (fun q => q.id)).count r.id = 0
      ∧ (R2.map (fun q => q.id)).count r.id = 0 := by
    rw [List.map_append, List.count_append, List.map_cons, List.count_cons_self] at hR1
    constructor <;> omega
  have hR1ne : ∀ q ∈ R1, q.id ≠ r.id := by
    intro q hq hc
    have : r.id ∈ R1.map (fun q => q.id) := hc ▸ List.mem_map_of_mem _ hq
    exact absurd this (List.count_eq_zero.mp hcounts.1)
  have hR2ne : ∀ q ∈ R2, q.id ≠ r.id := by
    intro q hq hc
    have : r.id ∈ R2.map (fun q => q.id) := hc ▸ List.mem_map_of_mem _ hq
    exact absurd this (List.count_eq_zero.mp hcounts.2)
  have hstep : combineAssistants L (R1 ++ r :: R2)
      = (R2.map mapVapiAssistantToLocalFormat).foldl combineStep
          (combineStep ((R1.map mapVapiAssistantToLocalFormat).foldl combineStep L)
            (mapVapiAssistantToLocalFormat r)) := by
    unfold combineAssistants
    rw [List.map_append, List.foldl_append, List.map_cons, List.foldl_cons]
  rw [hstep]
  have h1 : ((R1.map mapVapiAssistantToLocalFormat).foldl combineStep L)[i]? = some l := by
    apply foldl_combineStep_untouched hLi
    intro m hm
    obtain ⟨q, hq, rfl⟩ := List.mem_map.mp hm
    show q.id ≠ l.assistant_id
    rw [hid]
    exact hR1ne q hq
  have h2 : ∀ j, j < i →
      (remoteIds ((R1.map mapVapiAssistantToLocalFormat).foldl combineStep L))[j]?
        ≠ some r.id :=
    foldl_combineStep_first_idx hfirst hiLlen
  obtain ⟨cs2, hupd, hget⟩ :=
    updateFirstByRemoteId_hits h1
      (show l.assistant_id = (mapVapiAssistantToLocalFormat r).assistant_id from hid) h2
  have hcomb : combineStep ((R1.map mapVapiAssistantToLocalFormat).foldl combineStep L)
      (mapVapiAssistantToLocalFormat r) = cs2 := by
    simp only [combineStep, hupd]
  rw [hcomb]
  apply foldl_combineStep_untouched hget
  intro m hm
  obtain ⟨q, hq, rfl⟩ := List.mem_map.mp hm
  show q.id ≠ l.assistant_id
  rw [hid]
  exact hR2ne q hq

/-- C2 witness: the amended statement applied at L = [localX1],
R = [remoteXPending], whose shared id "x" occurs once on each side; the
merged record keeps every field of localX1 except the status, which
becomes the normalized remote status "pending". -/
theorem c2_merge_status_update_frame_witness :
    ([localX1] : List VapiAssistant)[0]? = some localX1
    ∧ remoteXPending ∈ [remoteXPending]
    ∧ localX1.assistant_id = remoteXPending.id
    ∧ ([localX1].map (fun a => a.assistant_id)).count remoteXPending.id = 1
    ∧ ([remoteXPending].map (fun q => q.id)).count remoteXPending.id = 1
    ∧ (combineAssistants [localX1] [remoteXPending])[0]?
        = some { localX1 with status := some (normalizeStatus remoteXPending.status) } :=
  ⟨by decide, by decide, by decide, by decide, by decide,
    c2_merge_status_update_frame [localX1] [remoteXPending]
      (by decide) (by decide) (by decide) (by decide) (by decide)⟩

/-- C2 counterexample: with L = [localX1] and R = [remoteXPending,
remoteXFailed], all three records sharing remoteId "x", the merged
record ends with status "failed" (the last remote's status), not the
normalized status "pending" of remoteXPending, so the claim fails for
the pair (localX1, remoteXPending). -/
theorem c2_counterexample :
    combineAssistants [localX1] [remoteXPending, remoteXFailed]
        = [{ localX1 with status := some "failed" }]
    ∧ normalizeStatus remoteXPending.status = "pending"
    ∧ ¬ (combineAssistants [localX1] [remoteXPending, remoteXFailed])[0]?
          = some { localX1 with status := some (normalizeStatus remoteXPending.status) } := by
  decide

/-- C5: on the spec scenario L = [{localId 1, remoteId null, name "A"}]
and R = [{id "r1", name "A", status "weird"}], merge appends the
translated remote record (normalized status "ready") and leaves the
local record untouched: its remoteId stays null (empty string) — a name
match triggers neither an in-place update nor a remoteId backfill. -/
theorem c5_scenario_no_name_match_no_backfill :
    combineAssistants [scenarioLocalA] [scenarioRemoteA]
        = [scenarioLocalA, mapVapiAssistantToLocalFormat scenarioRemoteA]
    ∧ (mapVapiAssistantToLocalFormat scenarioRemoteA).status = some "ready"
    ∧ scenarioLocalA.assistant_id = ""
    ∧ scenarioLocalA.name = scenarioRemoteA.name := by
  decide

theorem strategy1_skip {env : ResolveEnv} {st : RState}
    (h : truthy st.vapiAssistantId = true) : strategy1 env st = st := by
  unfold strategy1
  rw [h]
  simp

theorem strategy2_skip {hints : ResolveHints} {env : ResolveEnv} {st : RState}
    (h : truthy st.vapiAssistantId = true) : strategy2 hints env st = st := by
  unfold strategy2
  rw [h]
  simp

theorem strategy3_skip {env : ResolveEnv} {st : RState}
    (h : truthy st.vapiAssistantId = true) : strategy3 env st = st := by
  unfold strategy3
  rw [h]
  simp

theorem strategy4_skip {env : ResolveEnv} {st : RState}
    (h : truthy st.vapiAssistantId = true) : strategy4 env st = st := by
  unfold strategy4
  rw [h]
  simp

theorem strategy5_skip {env : ResolveEnv} {st : RState}
    (h : truthy st.vapiAssistantId = true) : strategy5 env st = st := by
  unfold strategy5
  rw [h]
  simp

theorem strategy6_skip {st : RState}
    (h : truthy st.vapiAssistantId = true) : strategy6 st = st := by
  unfold strategy6
  rw [h]
  simp

/-- C3: when the dispatch payload already carries a (truthy) remote
assistant id in additional_data.vapi_assistant_id, resolution returns
that id as-is, issues no external query at all (in particular no
remote-catalog query by name, by id, or list-all), and is not marked
degraded: every later cascade strategy is skipped. -/
theorem c3_remote_id_hint_short_circuits
    (hints : ResolveHints) (env : ResolveEnv) {x : String}
    (hx : hints.vapi_assistant_id = some x) (hne : x ≠ "") :
    (resolveVapiAssistantId hints env).vapiAssistantId = some x
    ∧ (resolveVapiAssistantId hints env).queries = []
    ∧ (resolveVapiAssistantId hints env).usedFallback = false := by
  have ht : truthy (initResolveState hints).vapiAssistantId = true := by
    simp [initResolveState, hx, truthy, hne]
  have hres : resolveVapiAssistantId hints env = initResolveState hints := by
    unfold resolveVapiAssistantId
    rw [strategy1_skip ht, strategy2_skip ht, strategy3_skip ht, strategy4_skip ht,
      strategy5_skip ht, strategy6_skip ht]
  rw [hres]
  exact ⟨by simp [initResolveState, hx], rfl, rfl⟩

/-- C3 witness: the theorem applied at hints carrying only the remote
id "vapi-123" and the environment whose collaborators all fail. -/
theorem c3_remote_id_hint_short_circuits_witness :
    hintsRemoteOnly.vapi_assistant_id = some "vapi-123"
    ∧ "vapi-123" ≠ ""
    ∧ ((resolveVapiAssistantId hintsRemoteOnly emptyResolveEnv).vapiAssistantId
          = some "vapi-123"
        ∧ (resolveVapiAssistantId hintsRemoteOnly emptyResolveEnv).queries = []
        ∧ (resolveVapiAssistantId hintsRemoteOnly emptyResolveEnv).usedFallback = false) :=
  ⟨rfl, by decide,
    c3_remote_id_hint_short_circuits hintsRemoteOnly emptyResolveEnv rfl (by decide)⟩

theorem strategy1_no_match {env : ResolveEnv} {st : RState}
    (hn : ∀ n, truthy (env.idByName n) = false) :
    (strategy1 env st).vapiAssistantId = st.vapiAssistantId := by
  unfold strategy1
  split
  · simp [hn]
  · rfl

theorem strategy2_vapi_unchanged {hints : ResolveHints} {env : ResolveEnv} {st : RState}
    (he : ∀ s, truthy (env.ensureVapiId s) = false) :
    (strategy2 hints env st).vapiAssistantId = st.vapiAssistantId := by
  unfold strategy2
  split
  · simp [he]
  · rfl

theorem strategy3_vapi_unchanged {env : ResolveEnv} {st : RState}
    (hdb : ∀ s row, env.assistantFromDb s = some row → truthy row.assistant_id = false) :
    (strategy3 env st).vapiAssistantId = st.vapiAssistantId := by
  unfold strategy3
  split
  · cases hrow : env.assistantFromDb (st.supabaseAssistantId.getD "") with
    | none => simp [hrow]
    | some row => simp [hrow, hdb _ _ hrow]
  · rfl

theorem strategy4_no_stored {env : ResolveEnv} {st : RState}
    (hs : env.storedAssistant = none) :
    (strategy4 env st).vapiAssistantId = st.vapiAssistantId := by
  unfold strategy4
  split
  · simp [hs]
  · rfl

theorem strategy5_empty_catalog {env : ResolveEnv} {st : RState}
    (hc : env.vapiCatalog = []) :
    (strategy5 env st).vapiAssistantId = st.vapiAssistantId := by
  unfold strategy5
  split
  · simp [hc]
  · rfl

theorem strategy6_fallback {st : RState}
    (h : truthy st.vapiAssistantId = false) :
    (strategy6 st).vapiAssistantId = some FALLBACK_VAPI_ASSISTANT_ID
    ∧ (strategy6 st).usedFallback = true := by
  unfold strategy6
  rw [h]
  simp

/-- C4: when no strategy can produce a truthy id — no truthy remote-id
hint, no by-name match, no local-id mapping (ensureVapiAssistantId and
the database row both fail), no cached selection and an empty remote
catalog — resolution returns the fixed fallback identifier
"01646bac-c486-455b-b1f7-1c8e15ba4cbf" and is marked degraded, so the
resolver always produces some identifier. -/
theorem c4_fallback_when_all_strategies_fail
    (hints : ResolveHints) (env : ResolveEnv)
    (hvapi : truthy hints.vapi_assistant_id = false)
    (hname : ∀ n, truthy (env.idByName n) = false)
    (hensure : ∀ s, truthy (env.ensureVapiId s) = false)
    (hdb : ∀ s row, env.assistantFromDb s = some row → truthy row.assistant_id = false)
    (hstored : env.storedAssistant = none)
    (hcat : env.vapiCatalog = []) :
    (resolveVapiAssistantId hints env).vapiAssistantId
        = some FALLBACK_VAPI_ASSISTANT_ID
    ∧ (resolveVapiAssistantId hints env).usedFallback = true := by
  have hv : truthy (strategy5 env (strategy4 env (strategy3 env (strategy2 hints env
      (strategy1 env (initResolveState hints)))))).vapiAssistantId = false := by
    rw [strategy5_empty_catalog hcat, strategy4_no_stored hstored,
      strategy3_vapi_unchanged hdb, strategy2_vapi_unchanged hensure,
      strategy1_no_match hname]
    simpa [initResolveState] using hvapi
  unfold resolveVapiAssistantId
  exact strategy6_fallback hv

/-- C4 witness: the theorem applied at empty hints and the environment
whose collaborators all fail, with every hypothesis discharged. -/
theorem c4_fallback_when_all_strategies_fail_witness :
    truthy hintsNone.vapi_assistant_id = false
    ∧ (∀ n, truthy (emptyResolveEnv.idByName n) = false)
    ∧ (∀ s, truthy (emptyResolveEnv.ensureVapiId s) = false)
    ∧ (∀ s row, emptyResolveEnv.assistantFromDb s = some row →
        truthy row.assistant_id = false)
    ∧ emptyResolveEnv.storedAssistant = none
    ∧ emptyResolveEnv.vapiCatalog = []
    ∧ ((resolveVapiAssistantId hintsNone emptyResolveEnv).vapiAssistantId
          = some FALLBACK_VAPI_ASSISTANT_ID
        ∧ (resolveVapiAssistantId hintsNone emptyResolveEnv).usedFallback = true) :=
  ⟨rfl, fun _ => rfl, fun _ => rfl, fun _ _ h => Option.noConfusion h, rfl, rfl,
    c4_fallback_when_all_strategies_fail hintsNone emptyResolveEnv rfl
      (fun _ => rfl) (fun _ => rfl) (fun _ _ h => Option.noConfusion h) rfl rfl⟩

theorem strategy5_eval (env : ResolveEnv) (st : RState) (c0 : CatalogEntry)
    (rest : List CatalogEntry) (hvapi : truthy st.vapiAssistantId = false)
    (hcat : env.vapiCatalog = c0 :: rest) :
    (strategy5 env st).vapiAssistantId =
      if truthy st.assistantNameToUse then
        match (c0 :: rest).find?
            (fun a => nameLooseMatch a.name (st.assistantNameToUse.getD "")) with
        | some m => if truthy (some m.id) then some m.id else some c0.id
        | none => some c0.id
      else some c0.id := by
  unfold strategy5
  rw [hvapi, hcat]
  by_cases hn : truthy st.assistantNameToUse
  · cases hfind : (c0 :: rest).find?
        (fun a => nameLooseMatch a.name (st.assistantNameToUse.getD "")) with
    | some m =>
      by_cases hm : truthy (some m.id) = true
      · simp [hn, hfind, hm]
      · simp only [Bool.not_eq_true] at hm
        simp [hn, hfind, hm]
    | none => simp [hn, hfind, hvapi]
  · simp only [Bool.not_eq_true] at hn
    simp [hn, hvapi]

/-- C6: when resolution reaches the list-all strategy with no truthy id
yet and a non-empty catalog, then: with a (truthy) name hint it selects
the first catalog record whose name contains the hint or whose hint
contains the name, case-insensitively (when that record's id is
non-empty); with no matching record, or no name hint, it selects the
first record of the catalog. -/
theorem c6_list_all_selection
    (env : ResolveEnv) (st : RState) (c0 : CatalogEntry) (rest : List CatalogEntry)
    (hvapi : truthy st.vapiAssistantId = false)
    (hcat : env.vapiCatalog = c0 :: rest) :
    (∀ nm, st.assistantNameToUse = some nm → nm ≠ "" →
        (∀ m, (c0 :: rest).find? (fun a => nameLooseMatch a.name nm) = some m →
            m.id ≠ "" → (strategy5 env st).vapiAssistantId = some m.id)
        ∧ ((c0 :: rest).find? (fun a => nameLooseMatch a.name nm) = none →
            (strategy5 env st).vapiAssistantId = some c0.id))
    ∧ (truthy st.assistantNameToUse = false →
        (strategy5 env st).vapiAssistantId = some c0.id) := by
  constructor
  · intro nm hnm hnme
    have hn : truthy st.assistantNameToUse = true := by simp [hnm, truthy, hnme]
    have hget : st.assistantNameToUse.getD "" = nm := by simp [hnm]
    constructor
    · intro m hfind hmid
      rw [strategy5_eval env st c0 rest hvapi hcat, hn, if_pos rfl, hget, hfind]
      simp [truthy, hmid]
    · intro hfind
      rw [strategy5_eval env st c0 rest hvapi hcat, hn, if_pos rfl, hget, hfind]
  · intro hn
    rw [strategy5_eval env st c0 rest hvapi hcat, hn]
    simp

/-- C6 witness: the theorem applied at the state holding only the name
hint "Sales Bot" and the catalog holding exactly one record, whose name
"The SALES bot 3000" contains the hint case-insensitively; that record
is selected. -/
theorem c6_list_all_selection_witness :
    truthy stNameHint.vapiAssistantId = false
    ∧ envSales.vapiCatalog = [catalogSales]
    ∧ stNameHint.assistantNameToUse = some "Sales Bot"
    ∧ [catalogSales].find? (fun a => nameLooseMatch a.name "Sales Bot") = some catalogSales
    ∧ catalogSales.id ≠ ""
    ∧ (strategy5 envSales stNameHint).vapiAssistantId = some catalogSales.id :=
  ⟨rfl, rfl, rfl, by decide, by decide,
    ((c6_list_all_selection envSales stNameHint catalogSales [] rfl rfl).1
      "Sales Bot" rfl (by decide)).1 catalogSales (by decide) (by decide)⟩

/-- C7: a dispatch whose outbound POST times out or returns a
non-success status yields success false — the function returns rather
than raising — and the stop-campaign flow still advances the local
campaign to stopped on a failed dispatch. -/
theorem c7_failed_dispatch_soft_fail
    (hints : ResolveHints) (env : ResolveEnv) (post : HttpResult)
    (hfail : post ≠ HttpResult.ok) :
    (triggerCallWebhook hints env post).fst = false
    ∧ (handleStopCampaign (triggerCallWebhook hints env post).fst).campaignStopped
        = true := by
  constructor
  · simp only [triggerCallWebhook]
    cases h : truthy (resolveVapiAssistantId hints env).vapiAssistantId <;>
      cases post <;> first | exact absurd rfl hfail | rfl
  · unfold handleStopCampaign
    split <;> rfl

/-- C7 witness: the theorem applied at empty hints, the failing
environment and a timed-out POST. -/
theorem c7_failed_dispatch_soft_fail_witness :
    HttpResult.timeout ≠ HttpResult.ok
    ∧ ((triggerCallWebhook hintsNone emptyResolveEnv HttpResult.timeout).fst = false
        ∧ (handleStopCampaign
            (triggerCallWebhook hintsNone emptyResolveEnv HttpResult.timeout).fst).campaignStopped
          = true) :=
  ⟨by decide,
    c7_failed_dispatch_soft_fail hintsNone emptyResolveEnv HttpResult.timeout (by decide)⟩

/-- C8: deleteAssistant attempts the remote deletion before the local
deletion (the event log places deleteRemote between fetchLocal and
deleteLocal), returns true exactly when the local lookup and the local
deletion succeed — independently of the remote deletion's outcome,
which is logged but never propagated — and returns false only when the
local lookup or the local deletion fails. -/
theorem c8_delete_local_authority (assistantId : String) (env : DeleteEnv) :
    ((deleteAssistant assistantId env).fst = true
        ↔ env.lookup.isSome ∧ env.localDeleteError = false)
    ∧ (∀ row, env.lookup = some row →
        ∃ tail, (deleteAssistant assistantId env).snd
          = DeleteEvent.fetchLocal :: DeleteEvent.deleteRemote row.assistant_id
              :: DeleteEvent.deleteLocal :: tail)
    ∧ (∀ other : HttpResult,
        deleteAssistant assistantId { env with remoteDeleteResult := other }
          = deleteAssistant assistantId env) := by
  refine ⟨?_, ?_, ?_⟩
  · cases hl : env.lookup with
    | none => simp [deleteAssistant, hl]
    | some row =>
      by_cases hd : env.localDeleteError
      · simp [deleteAssistant, hl, hd]
      · by_cases hs : env.selectedStoredId = some assistantId <;>
          simp [deleteAssistant, hl, hd, hs]
  · intro row hl
    by_cases hd : env.localDeleteError
    · exact ⟨[], by simp [deleteAssistant, hl, hd]⟩
    · by_cases hs : env.selectedStoredId = some assistantId
      · exact ⟨[DeleteEvent.clearSelection], by simp [deleteAssistant, hl, hd, hs]⟩
      · exact ⟨[], by simp [deleteAssistant, hl, hd, hs]⟩
  · intro other
    cases hl : env.lookup <;> simp [deleteAssistant, hl]

/-- C8 witness: the theorem applied at id "a1" and a run whose remote
deletion timed out but whose local lookup and deletion succeeded; the
result is true and the remote deletion precedes the local one. -/
theorem c8_delete_local_authority_witness :
    deleteEnvOk.lookup = some deleteRowA1
    ∧ (∃ tail, (deleteAssistant "a1" deleteEnvOk).snd
        = DeleteEvent.fetchLocal :: DeleteEvent.deleteRemote deleteRowA1.assistant_id
            :: DeleteEvent.deleteLocal :: tail)
    ∧ (deleteAssistant "a1" deleteEnvOk).fst = true :=
  ⟨rfl,
    (c8_delete_local_authority "a1" deleteEnvOk).2.1 deleteRowA1 rfl,
    (c8_delete_local_authority "a1" deleteEnvOk).1.mpr ⟨rfl, rfl⟩⟩

/-- C9 (amended): owner filtering happens before merge, and every
remote record passed to merge carries an embedded owner metadata tag
equal to the requesting ownerId; a remote record without an owner
metadata tag is excluded by the filter, not treated as a candidate. -/
theorem c9_owner_filter_before_merge
    (userId : String) (localAssistants : List VapiAssistant)
    (remote : List RemoteAssistant) :
    getAllAssistantsCombined userId localAssistants remote
        = combineAssistants localAssistants (remote.filter (ownerPred userId))
    ∧ ∀ a ∈ remote.filter (ownerPred userId), a.metadata_user_id = some userId := by
  refine ⟨rfl, ?_⟩
  intro a ha
  have hp : ownerPred userId a = true := List.of_mem_filter ha
  unfold ownerPred at hp
  cases hmeta : a.metadata_user_id with
  | none => rw [hmeta] at hp; cases hp
  | some uid =>
    rw [hmeta] at hp
    by_cases hne : uid = ""
    · simp [hne] at hp
    · simp only [ne_eq, hne, not_false_eq_true, if_true, decide_eq_true_eq] at hp
      rw [hp]

/-- C9 witness: the theorem applied at user "u" with the single remote
record owned by "u", which passes the filter with its tag intact. -/
theorem c9_owner_filter_before_merge_witness :
    remoteOwnedU ∈ [remoteOwnedU].filter (ownerPred "u")
    ∧ remoteOwnedU.metadata_user_id = some "u" :=
  ⟨by decide,
    (c9_owner_filter_before_merge "u" [] [remoteOwnedU]).2 remoteOwnedU (by decide)⟩

/-- C9 counterexample: a remote record without an owner metadata tag is
dropped by the filter before merge — getAllAssistants passes no such
record to merge — contradicting the claim that untagged records are
treated as candidates with owner-scoping left to the caller. -/
theorem c9_counterexample :
    remoteNoOwner.metadata_user_id = none
    ∧ [remoteNoOwner].filter (ownerPred "u") = []
    ∧ getAllAssistantsCombined "u" [] [remoteNoOwner] = [] := by
  decide

/-- C10: combineAssistants builds its output as a shallow copy of the
caller's local list, so a status update for a matching remote record is
written through the caller's original record object: in the heap model
the caller's heap cell is overwritten with the new status and the
returned list still points at that very cell. -/
theorem c10_merge_mutates_local_input
    (heap : List VapiAssistant) (p : ℕ) (a : VapiAssistant) (r : RemoteAssistant)
    (hp : heap[p]? = some a) (hid : a.assistant_id = r.id)
    (hst : some (normalizeStatus r.status) ≠ a.status) :
    (combineAssistantsH heap [p] [r]).fst[p]?
        = some { a with status := some (normalizeStatus r.status) }
    ∧ (combineAssistantsH heap [p] [r]).snd = [ObjRef.ptr p] := by
  have hplen : p < heap.length := by
    by_contra hge
    rw [List.getElem?_eq_none (Nat.le_of_not_lt hge)] at hp
    cases hp
  have hupd : updateFirstH heap [ObjRef.ptr p] (mapVapiAssistantToLocalFormat r)
      = some (heap.set p { a with status := some (normalizeStatus r.status) },
              [ObjRef.ptr p]) := by
    unfold updateFirstH
    simp [derefObj, hp, mapVapiAssistantToLocalFormat, hid, hst]
  have hcomb : combineAssistantsH heap [p] [r]
      = (heap.set p { a with status := some (normalizeStatus r.status) },
         [ObjRef.ptr p]) := by
    unfold combineAssistantsH
    simp [combineStepH, hupd]
  rw [hcomb]
  exact ⟨by simp [List.getElem?_set_self', hplen], rfl⟩

/-- C10 witness: the theorem applied at the one-cell heap [localX1]
aliased by the local list, and the remote record remoteXPending: the
caller's cell 0 afterwards holds status "pending". -/
theorem c10_merge_mutates_local_input_witness :
    ([localX1] : List VapiAssistant)[0]? = some localX1
    ∧ localX1.assistant_id = remoteXPending.id
    ∧ some (normalizeStatus remoteXPending.status) ≠ localX1.status
    ∧ ((combineAssistantsH [localX1] [0] [remoteXPending]).fst[0]?
          = some { localX1 with status := some (normalizeStatus remoteXPending.status) }
        ∧ (combineAssistantsH [localX1] [0] [remoteXPending]).snd = [ObjRef.ptr 0]) :=
  ⟨rfl, rfl, by decide,
    c10_merge_mutates_local_input [localX1] 0 localX1 remoteXPending rfl rfl (by decide)⟩

end DialerFusion
